import Mathlib

/-!
Shallow embedding of the browser-agent repository
(planner/orchestrator in internal/agent, snapshot collection in
internal/snapshot, LLM clients in internal/llm), together with proofs of
the frozen claims about it.

Go strings are modelled as Lean strings (lists of characters); byte-level
operations of the source coincide with the character-level model on the
inputs involved, since every multi-byte UTF-8 sequence starts with a
non-continuation byte, so byte-substring search cannot match across
character boundaries on valid UTF-8 text.
-/

namespace Agent

/-- Model of Go dynamic JSON values (the result of json.Unmarshal into
map[string]any): null, booleans, numbers, strings, arrays, objects.
Numbers are modelled as integers; the claims only involve integral
indices. -/
inductive JValue where
  | null : JValue
  | bool (b : Bool) : JValue
  | num (n : Int) : JValue
  | str (s : String) : JValue
  | arr (xs : List JValue) : JValue
  | obj (fields : List (String × JValue)) : JValue
deriving Inhabited

/-- A Go map[string]any is modelled as an association list with unique
keys; lookup takes the first binding. -/
abbrev JMap := List (String × JValue)

/-- Lookup in the association-list model of a Go map (first binding
wins; keys are unique in every map the program builds). -/
def jget : JMap → String → Option JValue
  | [], _ => none
  | (k', v) :: rest, k => if k' = k then some v else jget rest k

/-- Models the Go type assertion with discarded ok flag,
`s, _ := v.(string)`: a missing key or non-string value yields the zero
value "". -/
def asGoString (v : Option JValue) : String :=
  match v with
  | some (JValue.str s) => s
  | _ => ""

/-- Models Go map assignment m[k] = v on the association-list model:
replaces any existing binding for k (Go maps are unordered, so only the
key-value graph matters; lookups agree). -/
def mapSet (m : JMap) (k : String) (v : JValue) : JMap :=
  (m.filter (fun p => p.1 ≠ k)) ++ [(k, v)]

/-- Go unicode.IsSpace restricted to the Latin-1 range (space, tab,
newline, vertical tab, form feed, carriage return, NEL, NBSP); the wider
Unicode White_Space code points do not occur in any input considered
here. -/
def goIsSpace (c : Char) : Bool :=
  c = ' ' || c = '\t' || c = '\n' || c = '\x0b' || c = '\x0c' || c = '\r' ||
    c = '\x85' || c = '\xa0'

/-- Models Go strings.TrimSpace. -/
def trimSpace (s : String) : String :=
  ⟨((s.data.dropWhile goIsSpace).reverse.dropWhile goIsSpace).reverse⟩

/-- Models Go strings.ToLower; Char.toLower lower-cases ASCII letters,
which is all the call sites compared here rely on. -/
def strToLower (s : String) : String :=
  ⟨s.data.map Char.toLower⟩

/-- Models the hand-rolled substring check in planner.go (func contains,
lines 995-1005): brute-force comparison of every length-preserving
window. Go strings.Contains has the same extension and is modelled by
the same function. -/
def goContains (s sub : String) : Bool :=
  if s.data.length < sub.data.length then false
  else
    (List.range (s.data.length - sub.data.length + 1)).any
      (fun i => (s.data.drop i).take sub.data.length == sub.data)

/-- Plain mathematical substring relation used to state claims about
goContains. -/
def SubstringOf (sub s : String) : Prop :=
  ∃ pre post, s.data = pre ++ sub.data ++ post

theorem goContains_iff (s sub : String) :
    goContains s sub = true ↔ SubstringOf sub s := by
  constructor
  · intro h
    unfold goContains at h
    split at h
    · exact absurd h (by simp)
    · rcases List.any_eq_true.mp h with ⟨i, hi, hw⟩
      refine ⟨s.data.take i, (s.data.drop i).drop sub.data.length, ?_⟩
      have hwin : (s.data.drop i).take sub.data.length = sub.data := by
        simpa using hw
      have hsplit : s.data = s.data.take i ++ ((s.data.drop i).take sub.data.length ++
          (s.data.drop i).drop sub.data.length) := by
        rw [List.take_append_drop, List.take_append_drop]
      rw [hwin] at hsplit
      simpa [List.append_assoc] using hsplit
  · rintro ⟨pre, post, hs⟩
    unfold goContains
    have hlen : s.data.length = pre.length + sub.data.length + post.length := by
      simp [hs]; omega
    split
    · omega
    · refine List.any_eq_true.mpr ⟨pre.length, ?_, ?_⟩
      · simp only [List.mem_range]
        omega
      · have hdrop : s.data.drop pre.length = sub.data ++ post := by
          rw [hs, List.append_assoc, List.drop_left]
        rw [hdrop]
        simp [List.take_left]

/-! ## Decision parsing (internal/agent planner, the part_008 revision,
which matches the Decision shape consumed by the Orchestrator) -/

/-- Model of the agent.Decision struct. -/
structure Decision where
  actionName : String := ""
  actionInput : JMap := []
  finish : Bool := false
  message : String := ""
  thinking : String := ""
  evaluationPreviousGoal : String := ""
  memory : String := ""
  nextGoal : String := ""
deriving Inhabited

/-- The struct json.Unmarshal fills from the extracted JSON object
(parseDecision's anonymous struct), after the multi_tool_use.parallel
normalization has produced an action name and an input map. -/
structure ParsedResponse where
  thinking : String := ""
  evaluationPreviousGoal : String := ""
  memory : String := ""
  nextGoal : String := ""
  action : String := ""
  input : JMap := []
deriving Inhabited

/-- Models strings.TrimSpace plus the strings.TrimPrefix of the
"functions." prefix (parseDecision lines 1989-1992 of part_008). -/
def normalizeActionName (s : String) : String :=
  let t := trimSpace s
  if t.startsWith "functions." then t.drop 10 else t

/-- One link of the message elif-chain: the key's value if it is a string
that is non-blank after trimming, per parseDecision lines 2005-2011. -/
def strField (input : JMap) (k : String) : Option String :=
  match jget input k with
  | some (JValue.str s) => if trimSpace s ≠ "" then some (trimSpace s) else none
  | _ => none

/-- The finish-message selection chain of parseDecision: message, then
result, then text, first non-blank trimmed string wins, default "". -/
def finishMessage (input : JMap) : String :=
  (((strField input "message").orElse
      (fun _ => strField input "result")).orElse
      (fun _ => strField input "text")).getD ""

/-- The Decision parseDecision assembles before the finish handling
(part_008 lines 1994-2001). -/
def baseDecision (p : ParsedResponse) : Decision :=
  { actionName := normalizeActionName p.action
    actionInput := p.input
    thinking := trimSpace p.thinking
    evaluationPreviousGoal := trimSpace p.evaluationPreviousGoal
    memory := trimSpace p.memory
    nextGoal := trimSpace p.nextGoal }

/-- Models parseDecision (part_008 lines 1988-2017): builds the Decision
from the unmarshalled response, and for action "finish" requires a
non-blank message (hard parse failure otherwise). -/
def parseDecision (p : ParsedResponse) : Except String Decision :=
  if normalizeActionName p.action = "finish" then
    if finishMessage p.input = "" then
      Except.error "finish action requires message field in input"
    else
      Except.ok { baseDecision p with finish := true, message := finishMessage p.input }
  else Except.ok (baseDecision p)

/-! ## Destructive-action confirmation (planner.go lines 912-1005) -/

/-- The destructiveActions map literal of requiresConfirmation
(planner.go lines 915-920), exactly as written in the source: every
value is false. -/
def destructiveActions : List (String × Bool) :=
  [("click_selector", false), ("click_role", false),
   ("click_text", false), ("fill", false)]

/-- Go map[string]bool access m[k] with zero-value default. -/
def goBoolMapGet : List (String × Bool) → String → Bool
  | [], _ => false
  | (k', b) :: rest, k => if k' = k then b else goBoolMapGet rest k

/-- The destructive keyword list of requiresConfirmation (planner.go
lines 942-951). -/
def destructiveKeywords : List String :=
  ["delete", "удалить",
   "payment", "оплатить", "купить", "buy", "purchase", "checkout", "pay",
   "remove", "очистить", "clear",
   "submit", "отправить", "подтвердить",
   "confirm", "подтвердить",
   "cancel", "отменить",
   "archive", "архив",
   "unsubscribe", "отписаться"]

/-- Models requiresConfirmation (planner.go lines 913-961). Map access
destructiveActions[action] yields the stored value or the zero value
false for a missing key; the guard returns early unless that value is
true. The later ifs each overwrite textToCheck when the key holds a
string. -/
def requiresConfirmation (action : String) (input : JMap) : Bool :=
  if !(goBoolMapGet destructiveActions action) then false
  else
    let textToCheck := ""
    let textToCheck := match jget input "selector" with
      | some (JValue.str s) => s
      | _ => textToCheck
    let textToCheck := match jget input "role" with
      | some (JValue.str s) => s
      | _ => textToCheck
    let textToCheck := match jget input "text" with
      | some (JValue.str s) => s
      | _ => textToCheck
    let textToCheck := match jget input "label" with
      | some (JValue.str s) => s
      | _ => textToCheck
    let lower := strToLower textToCheck
    destructiveKeywords.any (fun kw => goContains lower (strToLower kw))

/-- Models the reply interpretation of requestConfirmation (planner.go
lines 988-992): the user's raw reply confirms iff it contains "yes",
"да" or "y" as a substring, with no lower-casing. -/
def confirmationAccepted (response : String) : Bool :=
  goContains response "yes" || goContains response "да" || goContains response "y"

/-! ## Loop guard (planner.go Run lines 357-399 and tooManyRepeats lines
859-910) -/

/-- Model of agent.HistoryItem (the reasoning fields carried for audit
are irrelevant to the guards and omitted). -/
structure HistoryItem where
  action : String := ""
  result : String := ""
  selector : String := ""
  url : String := ""
deriving Repr, DecidableEq, Inhabited

/-- Models tooManyRepeats (planner.go lines 859-910). The Go limit is an
int; all call sites pass positive values, so it is a Nat here and the
limit = 0 branch models the limit <= 0 early return. When
history.length is at least limit, the Go downward loops visit exactly
the last limit entries, modelled by List.drop. -/
def tooManyRepeats (history : List HistoryItem) (action : String)
    (input : JMap) (limit : Nat) : Bool :=
  if limit = 0 then false
  else if history.length < limit then false
  else if action = "click_selector" then
    let selector := asGoString (jget input "selector")
    let currentURL := asGoString (jget input "_url")
    let lastN := history.drop (history.length - limit)
    let count := (lastN.filter (fun it =>
      it.action == action && it.selector == selector && it.url == currentURL)).length
    decide (count ≥ limit)
  else if action = "click_by_index" then
    let currentURL := asGoString (jget input "_url")
    let lastN := history.drop (history.length - limit)
    let count := (lastN.filter (fun it =>
      it.action == action && it.url == currentURL)).length
    decide (count ≥ limit)
  else
    (history.drop (history.length - limit)).all (fun it => it.action == action)

/-- The per-action limit assignment of Run (planner.go lines 357-388),
written as a single chain; the Go code assigns limit := 3 and then
overwrites it in action-specific ifs whose conditions are mutually
exclusive, so the chain is equivalent. save_state drops to 1 once a
successful save (result containing "saved") is in the history. -/
def repeatLimit (action : String) (history : List HistoryItem) : Nat :=
  if action = "scroll_page" then 20
  else if action = "click_by_index" then 2
  else if action = "wait_for_lazy_list" then 2
  else if action = "navigate" then 2
  else if action = "wait" then 3
  else if action = "request_user_input" then 999
  else if action = "save_state" &&
      history.any (fun it => it.action == "save_state" && goContains it.result "saved")
    then 1
  else 3

theorem repeatLimit_pos (action : String) (history : List HistoryItem) :
    1 ≤ repeatLimit action history := by
  unfold repeatLimit
  split_ifs <;> omega

/-- The checkInput construction of Run (planner.go lines 392-396): copy
the decision input and set "_url" to the current page URL. -/
def runCheckInput (actionInput : JMap) (url : String) : JMap :=
  mapSet actionInput "_url" (JValue.str url)

/-- The complete loop-guard test performed by Run before invocation
(planner.go lines 357-399); when it returns true, Run returns the
"too many repeated actions: ..." error and the decision is never
invoked. -/
def loopGuardTrips (history : List HistoryItem) (dec : Decision)
    (currentURL : String) : Bool :=
  tooManyRepeats history dec.actionName
    (runCheckInput dec.actionInput currentURL)
    (repeatLimit dec.actionName history)

theorem jget_mapSet_self (m : JMap) (k : String) (v : JValue) :
    jget (mapSet m k v) k = some v := by
  unfold mapSet
  induction m with
  | nil => simp [jget]
  | cons p rest ih =>
    by_cases hp : p.1 = k
    · simpa [List.filter_cons, hp] using ih
    · simpa [List.filter_cons, hp, jget] using ih

theorem jget_mapSet_other (m : JMap) (k k' : String) (v : JValue)
    (hne : k' ≠ k) : jget (mapSet m k v) k' = jget m k' := by
  unfold mapSet
  induction m with
  | nil => simp [jget, Ne.symm hne]
  | cons p rest ih =>
    by_cases hp : p.1 = k
    · have hp' : p.1 ≠ k' := by rw [hp]; exact Ne.symm hne
      simpa [List.filter_cons, hp, jget, hp', Ne.symm hne] using ih
    · by_cases hk' : p.1 = k'
      · simp [List.filter_cons, hp, jget, hk', hne]
      · simpa [List.filter_cons, hp, jget, hk'] using ih

theorem goBoolMapGet_destructiveActions (action : String) :
    goBoolMapGet destructiveActions action = false := by
  simp only [destructiveActions, goBoolMapGet]
  split_ifs <;> rfl

theorem trimSpace_empty : trimSpace "" = "" := rfl

theorem strField_none_of_blank (input : JMap) (k : String)
    (h : ∀ s, jget input k = some (JValue.str s) → s = "") :
    strField input k = none := by
  unfold strField
  cases hv : jget input k with
  | none => rfl
  | some v =>
    cases v with
    | str s =>
      have hs := h s hv
      subst hs
      simp [trimSpace_empty]
    | null => rfl
    | bool b => rfl
    | num n => rfl
    | arr xs => rfl
    | obj fields => rfl

/-! ## Claim theorems: decision validation, confirmation gate, loop guard -/

/-- C1: if the parsed decision's action is "finish" and none of the input
keys "message", "result", "text" carries a non-empty string, parseDecision
returns an error, and no successfully parsed Decision ever has
Finish = true together with an empty Message. -/
theorem C1_finish_requires_nonempty_message :
    (∀ p : ParsedResponse,
      normalizeActionName p.action = "finish" →
      (∀ s, jget p.input "message" = some (JValue.str s) → s = "") →
      (∀ s, jget p.input "result" = some (JValue.str s) → s = "") →
      (∀ s, jget p.input "text" = some (JValue.str s) → s = "") →
      ∃ e, parseDecision p = Except.error e) ∧
    (∀ (p : ParsedResponse) (d : Decision),
      parseDecision p = Except.ok d → d.finish = true → d.message ≠ "") := by
  constructor
  · intro p hname hmsg hres htxt
    have hfin : finishMessage p.input = "" := by
      unfold finishMessage
      rw [strField_none_of_blank p.input "message" hmsg,
          strField_none_of_blank p.input "result" hres,
          strField_none_of_blank p.input "text" htxt]
      rfl
    refine ⟨"finish action requires message field in input", ?_⟩
    simp [parseDecision, hname, hfin]
  · intro p d hok hfin
    unfold parseDecision at hok
    by_cases hname : normalizeActionName p.action = "finish"
    · rw [if_pos hname] at hok
      by_cases hmsg : finishMessage p.input = ""
      · rw [if_pos hmsg] at hok
        exact Except.noConfusion hok
      · rw [if_neg hmsg] at hok
        simp only [Except.ok.injEq] at hok
        subst hok
        simpa using hmsg
    · rw [if_neg hname] at hok
      simp only [Except.ok.injEq] at hok
      subst hok
      simp [baseDecision] at hfin

/-- Witness for C1 at a concrete finish decision whose message key holds
the empty string. -/
theorem C1_finish_requires_nonempty_message_witness :
    ∃ e, parseDecision { action := "finish", input := [("message", JValue.str "")] } =
      Except.error e := by
  apply C1_finish_requires_nonempty_message.1
  · decide
  · intro s h
    simp [jget] at h
    exact h.symm
  · intro s h
    simp [jget] at h
  · intro s h
    simp [jget] at h

/-- C2 (code bug): every value stored in the destructiveActions map
literal is false, so the early return fires for every action and
requiresConfirmation is constantly false; in particular it is false for
a click_selector on "#delete-account", although "delete" is in the
destructive keyword list. The confirmation round-trip in Run
(planner.go lines 401-422) is therefore unreachable, contradicting the
function's own documentation comment and the confirmation handling that
Run wires up for it. -/
theorem C2_requiresConfirmation_never_fires :
    (∀ (action : String) (input : JMap), requiresConfirmation action input = false) ∧
    requiresConfirmation "click_selector" [("selector", JValue.str "#delete-account")] = false := by
  have hall : ∀ (action : String) (input : JMap), requiresConfirmation action input = false := by
    intro action input
    unfold requiresConfirmation
    rw [goBoolMapGet_destructiveActions]
    rfl
  exact ⟨hall, hall _ _⟩

/-- C3: whenever the last N history entries, for N the action's repeat
limit, are identical (action, selector, URL) tuples matching the next
decision and the current URL, the loop-guard test Run performs before
invocation returns true, so Run returns the "too many repeated actions"
error instead of invoking the action. -/
theorem C3_repeat_guard_aborts (history : List HistoryItem) (dec : Decision)
    (currentURL sel : String)
    (hsel : asGoString (jget dec.actionInput "selector") = sel)
    (hN : repeatLimit dec.actionName history ≤ history.length)
    (hall : ∀ it ∈ history.drop
        (history.length - repeatLimit dec.actionName history),
      it.action = dec.actionName ∧ it.selector = sel ∧ it.url = currentURL) :
    loopGuardTrips history dec currentURL = true := by
  have hpos := repeatLimit_pos dec.actionName history
  set N := repeatLimit dec.actionName history with hNdef
  have hlastlen : (history.drop (history.length - N)).length = N := by
    rw [List.length_drop]
    omega
  have hurl : asGoString (jget (runCheckInput dec.actionInput currentURL) "_url") =
      currentURL := by
    unfold runCheckInput
    rw [jget_mapSet_self]
    rfl
  have hsel' : asGoString (jget (runCheckInput dec.actionInput currentURL) "selector") =
      sel := by
    unfold runCheckInput
    rw [jget_mapSet_other _ _ _ _ (by decide)]
    exact hsel
  unfold loopGuardTrips tooManyRepeats
  rw [← hNdef]
  rw [if_neg (by omega), if_neg (by omega)]
  by_cases hcs : dec.actionName = "click_selector"
  · rw [if_pos hcs]
    simp only [hurl, hsel']
    have hfilter : (history.drop (history.length - N)).filter (fun it =>
        it.action == dec.actionName && it.selector == sel && it.url == currentURL) =
        history.drop (history.length - N) := by
      apply List.filter_eq_self.mpr
      intro it hit
      obtain ⟨h1, h2, h3⟩ := hall it hit
      simp [h1, h2, h3]
    rw [hfilter, hlastlen]
    simp
  · rw [if_neg hcs]
    by_cases hci : dec.actionName = "click_by_index"
    · rw [if_pos hci]
      simp only [hurl]
      have hfilter : (history.drop (history.length - N)).filter (fun it =>
          it.action == dec.actionName && it.url == currentURL) =
          history.drop (history.length - N) := by
        apply List.filter_eq_self.mpr
        intro it hit
        obtain ⟨h1, _, h3⟩ := hall it hit
        simp [h1, h3]
      rw [hfilter, hlastlen]
      simp
    · rw [if_neg hci]
      apply List.all_eq_true.mpr
      intro it hit
      obtain ⟨h1, _, _⟩ := hall it hit
      simp [h1]

/-- Witness for C3: three consecutive identical click_selector attempts
on the same selector and URL (the limit for click_selector is 3) trip
the guard for a fourth identical decision. -/
theorem C3_repeat_guard_aborts_witness :
    loopGuardTrips
      [ { action := "click_selector", result := "error: timeout", selector := "#buy", url := "https://shop.example/cart" },
        { action := "click_selector", result := "error: timeout", selector := "#buy", url := "https://shop.example/cart" },
        { action := "click_selector", result := "error: timeout", selector := "#buy", url := "https://shop.example/cart" } ]
      { actionName := "click_selector", actionInput := [("selector", JValue.str "#buy")] }
      "https://shop.example/cart" = true := by
  apply C3_repeat_guard_aborts _ _ _ "#buy"
  · rfl
  · decide
  · decide

/-- C10: requestConfirmation confirms exactly when the raw reply contains
"yes", "да" or "y" anywhere as a substring, with no lower-casing; every
other reply declines. -/
theorem C10_confirmation_is_substring_match (response : String) :
    confirmationAccepted response = true ↔
      (SubstringOf "yes" response ∨ SubstringOf "да" response ∨
        SubstringOf "y" response) := by
  unfold confirmationAccepted
  simp [Bool.or_eq_true, goContains_iff, or_assoc]

/-- Witness for C10: a reply of "not yet" (which contains the letter y)
counts as confirmation; "nyet" likewise; the empty reply and "no"
decline. -/
theorem C10_confirmation_is_substring_match_witness :
    confirmationAccepted "not yet" = true ∧ confirmationAccepted "nyet" = true ∧
    confirmationAccepted "" = false ∧ confirmationAccepted "no" = false := by
  refine ⟨?_, ?_, by decide, by decide⟩
  · exact (C10_confirmation_is_substring_match "not yet").mpr
      (Or.inr (Or.inr ⟨"not ".data, "et".data, by decide⟩))
  · exact (C10_confirmation_is_substring_match "nyet").mpr
      (Or.inr (Or.inr ⟨"n".data, "et".data, by decide⟩))

/-! ## Snapshot collection (internal/snapshot, the part_002 revision
whose Element carries Index/ScrollInfo as used by the Orchestrator) -/

/-- Model of snapshot.Element. Go int fields are modelled as Int. -/
structure Element where
  index : Int := 0
  role : String := ""
  text : String := ""
  attr : String := ""
  bbox : String := ""
  sel : String := ""
  scrollInfo : String := ""
  depth : Int := 0
  nodeId : String := ""
  parentId : String := ""
deriving Repr, DecidableEq, Inhabited

/-- Go len(s) on a string counts bytes. -/
def goLen (s : String) : Nat := s.utf8ByteSize

/-- Models scoreElement (part_002 lines 790-830): a weighted sum of
signals, with the +2 readable-length bonus nested under the text bonus
exactly as in the source. -/
def scoreElement (el : Element) : Int :=
  let textLower := strToLower el.text
  let attrLower := strToLower el.attr
  let score : Int := 0
  let score := if el.role ≠ "" ∧ el.role ≠ "generic" ∧ el.role ≠ "presentation"
    then score + 5 else score
  let score := if goLen el.text > 0 then
      (if goLen el.text > 10 ∧ goLen el.text < 200 then score + 3 + 2 else score + 3)
    else score
  let score := if goContains textLower "@" then score + 3 else score
  let score := if goContains attrLower "data-testid" then score + 3 else score
  let score := if goContains attrLower "aria-label" then score + 2 else score
  let score := if goLen el.text = 0 ∧ el.role = "" then score - 5 else score
  let score := if goLen el.text > 500 then score - 3 else score
  score

/-- The in-place double-loop swap sort of filterAndRankElements
(part_002 lines 771-778): descending by score. -/
def exchangeSortScored (l : List (Element × Int)) : List (Element × Int) := Id.run do
  let mut a := l.toArray
  for i in [0 : a.size - 1] do
    for j in [i + 1 : a.size] do
      if (a[i]!).2 < (a[j]!).2 then
        let tmp := a[i]!
        a := a.set! i (a[j]!)
        a := a.set! j tmp
  return a.toList

/-- Models filterAndRankElements (part_002 lines 751-787): pass through
unchanged when already within budget, otherwise keep only
positive-score elements, sort descending by score, take the top
maxCount. -/
def filterAndRankElements (elems : List Element) (maxCount : Nat) : List Element :=
  if elems.length ≤ maxCount then elems
  else
    let scored := (elems.map (fun el => (el, scoreElement el))).filter (fun p => p.2 > 0)
    let sorted := exchangeSortScored scored
    (sorted.take maxCount).map (fun p => p.1)

/-- The actionableRoles map literal of Collect (part_002 lines 109-114);
every stored value is true, so map access is list membership. -/
def actionableRoles : List String :=
  ["button", "link", "textbox", "checkbox",
   "radio", "radiogroup", "combobox", "listitem", "menuitem",
   "tab", "option", "article", "row",
   "list", "listbox", "treeitem", "cell"]

/-- actionableRoles[strings.ToLower(role)] as checked by Collect. -/
def isActionableRole (el : Element) : Bool :=
  actionableRoles.contains (strToLower el.role)

/-- The partition-and-filter stage of Collect (part_002 lines 116-135):
every actionable-role element is kept; only the non-actionable ones go
through filterAndRankElements with budget 50; actionable elements come
first in the combined output. -/
def collectFilterStage (elems : List Element) : List Element :=
  let interactiveElems := elems.filter (fun el => isActionableRole el)
  let nonInteractiveElems := elems.filter (fun el => !isActionableRole el)
  let filteredNonInteractive := filterAndRankElements nonInteractiveElems 50
  interactiveElems ++ filteredNonInteractive

/-- The index-reassignment loop of Collect (part_002 lines 137-140):
element i gets Index i+1. -/
def assignIndicesFrom : Int → List Element → List Element
  | _, [] => []
  | n, e :: rest => { e with index := n } :: assignIndicesFrom (n + 1) rest

def assignIndices (l : List Element) : List Element := assignIndicesFrom 1 l

/-- Model of snapshot.PageStatistics. -/
structure PageStatistics where
  links : Nat := 0
  iframes : Nat := 0
  scrollContainers : Nat := 0
  interactive : Nat := 0
  totalElements : Nat := 0
deriving Repr, DecidableEq, Inhabited

/-- Models calculatePageStatistics (part_002 lines 59-89); the counting
loop is expressed as filter lengths. -/
def calculatePageStatistics (elems : List Element) : PageStatistics :=
  { links := (elems.filter (fun el =>
      strToLower el.role == "link" || goContains el.attr "href:")).length
    iframes := (elems.filter (fun el =>
      strToLower el.role == "document" || goContains el.attr "iframe")).length
    scrollContainers := (elems.filter (fun el => el.scrollInfo ≠ "")).length
    interactive := (elems.filter (fun el =>
      el.role ≠ "" ∧ el.role ≠ "generic" ∧ el.role ≠ "presentation")).length
    totalElements := elems.length }

/-- Model of snapshot.Summary. -/
structure Summary where
  url : String := ""
  title : String := ""
  visible : String := ""
  elements : List Element := []
  pageStats : PageStatistics := {}
deriving Repr, DecidableEq, Inhabited

/-- The pure tail of Collect (part_002 lines 91-151): the page I/O
(CDP accessibility query or DOM-walk fallback) supplies elems and the
raw body text, which the caller has already truncated to 1200 bytes;
this stage partitions, rank-filters the non-actionable side, reindexes
and derives page statistics. -/
def collectSummary (url title text : String) (elems : List Element) : Summary :=
  let filteredElems := assignIndices (collectFilterStage elems)
  { url := url, title := title, visible := trimSpace text,
    elements := filteredElems, pageStats := calculatePageStatistics filteredElems }

theorem mem_assignIndicesFrom (l : List Element) (x : Element) (hx : x ∈ l)
    (n : Int) : ∃ i : Int, { x with index := i } ∈ assignIndicesFrom n l := by
  induction l generalizing n with
  | nil => cases hx
  | cons e rest ih =>
    rcases List.mem_cons.mp hx with hx | hx
    · subst hx
      exact ⟨n, List.mem_cons_self _ _⟩
    · obtain ⟨i, hi⟩ := ih hx (n + 1)
      exact ⟨i, List.mem_cons_of_mem _ hi⟩

theorem map_index_assignIndicesFrom (l : List Element) (n : Int) :
    (assignIndicesFrom n l).map (fun e => e.index) =
      (List.range l.length).map (fun (i : Nat) => n + (i : Int)) := by
  induction l generalizing n with
  | nil => simp [assignIndicesFrom]
  | cons e rest ih =>
    simp only [assignIndicesFrom, List.map_cons, List.length_cons,
      List.range_succ_eq_map, List.map_map]
    refine List.cons_eq_cons.mpr ⟨by simp, ?_⟩
    rw [ih (n + 1)]
    apply List.map_congr_left
    intro i _
    simp only [Function.comp_apply]
    push_cast
    ring

/-- C4: every element whose (lower-cased) role is in the fixed actionable
set appears, with its reassigned index, in the element list of the
Summary Collect produces — regardless of its relevance score; only
non-actionable elements pass through scoring and truncation. -/
theorem C4_actionable_elements_always_retained (url title text : String)
    (elems : List Element) (e : Element) (he : e ∈ elems)
    (hrole : isActionableRole e = true) :
    ∃ i : Int, { e with index := i } ∈ (collectSummary url title text elems).elements := by
  have hmem : e ∈ collectFilterStage elems := by
    unfold collectFilterStage
    exact List.mem_append_left _ (List.mem_filter.mpr ⟨he, hrole⟩)
  exact mem_assignIndicesFrom _ _ hmem 1

/-- Witness for C4: a concrete button element is retained by the
collection stage. -/
theorem C4_actionable_elements_always_retained_witness :
    ∃ i : Int, { ({ role := "button", text := "Submit", sel := "#submit" } : Element)
        with index := i } ∈
      (collectSummary "https://x.example" "t" "body"
        [ { role := "generic", text := "filler" },
          { role := "button", text := "Submit", sel := "#submit" } ]).elements := by
  apply C4_actionable_elements_always_retained
  · decide
  · decide

/-- C5: the Index fields of the Summary's elements are exactly
1, 2, ..., K in output order, for every input element list. -/
theorem C5_indices_dense_contiguous (url title text : String)
    (elems : List Element) :
    (collectSummary url title text elems).elements.map (fun e => e.index) =
      (List.range (collectSummary url title text elems).elements.length).map
        (fun (i : Nat) => (i : Int) + 1) := by
  show (assignIndices (collectFilterStage elems)).map (fun e => e.index) =
    (List.range (assignIndices (collectFilterStage elems)).length).map
      (fun (i : Nat) => (i : Int) + 1)
  have hlen : ∀ (l : List Element) (n : Int),
      (assignIndicesFrom n l).length = l.length := by
    intro l
    induction l with
    | nil => intro n; rfl
    | cons e rest ih => intro n; simp [assignIndicesFrom, ih]
  unfold assignIndices
  rw [map_index_assignIndicesFrom, hlen]
  apply List.map_congr_left
  intro i _
  ring

/-! ## JSON extraction from prose (extractJSON and removeJSONComments,
part_008 lines 2020-2113) -/

/-- State of the brace-depth scanner after one character, or the
extracted object. -/
inductive ScanState where
  | done (r : List Char) : ScanState
  | cont (depth : Nat) (inStr esc : Bool) (acc : Option (List Char)) : ScanState
deriving Repr, DecidableEq, Inhabited

/-- The characters of the candidate object collected so far (in reverse);
none while no top-level brace has opened. Mirrors the start index of the
Go scanner: every scanned character from the start position onward is
part of the returned slice. -/
def pushAcc (acc : Option (List Char)) (c : Char) : Option (List Char) :=
  acc.map (fun l => c :: l)

/-- One step of extractJSON's scanner (part_008 lines 2025-2055): escape
consumption, backslash arming the escape only inside strings, quote
toggling, brace depth tracking outside strings, returning the slice when
the first top-level object closes. -/
def extractStep (c : Char) (depth : Nat) (inStr esc : Bool)
    (acc : Option (List Char)) : ScanState :=
  if esc then ScanState.cont depth inStr false (pushAcc acc c)
  else if c = '\\' then ScanState.cont depth inStr inStr (pushAcc acc c)
  else if c = '"' then ScanState.cont depth (!inStr) esc (pushAcc acc c)
  else if c = '\x7b' then
    if inStr then ScanState.cont depth inStr esc (pushAcc acc c)
    else if depth = 0 then ScanState.cont 1 inStr esc (some [c])
    else ScanState.cont (depth + 1) inStr esc (pushAcc acc c)
  else if c = '\x7d' then
    if inStr then ScanState.cont depth inStr esc (pushAcc acc c)
    else if depth = 0 then ScanState.cont depth inStr esc (pushAcc acc c)
    else
      match acc with
      | some l =>
        if depth = 1 then ScanState.done ((c :: l).reverse)
        else ScanState.cont (depth - 1) inStr esc (pushAcc acc c)
      | none => ScanState.cont (depth - 1) inStr esc none
  else ScanState.cont depth inStr esc (pushAcc acc c)

/-- The scanner loop of extractJSON; none models the "json not found"
error. -/
def extractScan : List Char → Nat → Bool → Bool → Option (List Char) → Option (List Char)
  | [], _, _, _, _ => none
  | c :: rest, depth, inStr, esc, acc =>
    match extractStep c depth inStr esc acc with
    | ScanState.done r => some r
    | ScanState.cont d i e a => extractScan rest d i e a

/-- extractJSON before comment stripping: the first balanced top-level
brace group, respecting string and escape context. -/
def extractJSONRaw (text : List Char) : Option (List Char) :=
  extractScan text 0 false false none

/-- The "/* ... */" skip loop of removeJSONComments (part_008 lines
2096-2107), applied to the characters after the opening "/*": consume up
to and including the terminator; with no terminator the Go index stops
at len-1 and the final character is processed (and emitted) by the main
loop, hence the singleton case. -/
def skipBlockComment : List Char → List Char
  | [] => []
  | c :: rest =>
    match rest with
    | [] => [c]
    | c2 :: rest2 => if c = '*' ∧ c2 = '/' then rest2 else skipBlockComment rest

theorem skipBlockComment_length_le (l : List Char) :
    (skipBlockComment l).length ≤ l.length := by
  induction l with
  | nil => simp [skipBlockComment]
  | cons c rest ih =>
    cases rest with
    | nil => simp [skipBlockComment]
    | cons c2 rest2 =>
      simp only [skipBlockComment]
      split_ifs
      · simp
        omega
      · calc (skipBlockComment (c2 :: rest2)).length ≤ (c2 :: rest2).length := ih
          _ ≤ (c :: c2 :: rest2).length := by simp

/-- The main loop of removeJSONComments (part_008 lines 2061-2112),
written with explicit fuel so the recursion is structural; the fuel
starts at the input length and the comment skips only ever shorten the
remaining input, so it never runs out (the 0 case is unreachable from
removeJSONComments). -/
def removeCommentsGo : Nat → List Char → Bool → Bool → List Char
  | 0, _, _, _ => []
  | _ + 1, [], _, _ => []
  | fuel + 1, c :: rest, inStr, esc =>
    if esc then c :: removeCommentsGo fuel rest inStr false
    else if inStr ∧ c = '\\' then c :: removeCommentsGo fuel rest inStr true
    else if c = '"' then c :: removeCommentsGo fuel rest (!inStr) esc
    else if inStr then c :: removeCommentsGo fuel rest inStr esc
    else if c = '/' ∧ rest.head? = some '/' then
      removeCommentsGo fuel (rest.tail.dropWhile (fun x => x ≠ '\n')) inStr esc
    else if c = '/' ∧ rest.head? = some '*' then
      removeCommentsGo fuel (skipBlockComment rest.tail) inStr esc
    else c :: removeCommentsGo fuel rest inStr esc

/-- Models removeJSONComments (part_008 lines 2061-2113). -/
def removeJSONComments (l : List Char) : List Char :=
  removeCommentsGo l.length l false false

/-- Models extractJSON (part_008 lines 2020-2058): scan for the first
balanced top-level object, then strip JSON comments from it. -/
def extractJSON (text : String) : Option String :=
  (extractJSONRaw text.data).map (fun l => ⟨removeJSONComments l⟩)

theorem extractScan_append (l : List Char) (rest : List Char) (d : Nat)
    (i e : Bool) (a : Option (List Char)) (r : List Char)
    (h : extractScan l d i e a = some r) :
    extractScan (l ++ rest) d i e a = some r := by
  induction l generalizing d i e a with
  | nil => simp [extractScan] at h
  | cons c l' ih =>
    rw [List.cons_append]
    rw [show extractScan (c :: l') d i e a =
      (match extractStep c d i e a with
       | ScanState.done r => some r
       | ScanState.cont d2 i2 e2 a2 => extractScan l' d2 i2 e2 a2) from rfl] at h
    rw [show extractScan (c :: (l' ++ rest)) d i e a =
      (match extractStep c d i e a with
       | ScanState.done r => some r
       | ScanState.cont d2 i2 e2 a2 => extractScan (l' ++ rest) d2 i2 e2 a2) from rfl]
    cases hs : extractStep c d i e a with
    | done r2 =>
      rw [hs] at h
      exact h
    | cont d2 i2 e2 a2 =>
      rw [hs] at h
      exact ih _ _ _ _ h

theorem extractScan_clean_prefix (pre l : List Char)
    (hpre : ∀ c ∈ pre, c ≠ '\x7b' ∧ c ≠ '"' ∧ c ≠ '\\') :
    extractScan (pre ++ l) 0 false false none = extractScan l 0 false false none := by
  induction pre with
  | nil => rfl
  | cons c pre' ih =>
    obtain ⟨h1, h2, h3⟩ := hpre c (List.mem_cons_self _ _)
    have hstep : extractStep c 0 false false none = ScanState.cont 0 false false none := by
      unfold extractStep
      rw [if_neg (by simp), if_neg h3, if_neg h2, if_neg h1]
      by_cases hc : c = '\x7d'
      · rw [if_pos hc]
        simp [pushAcc]
      · rw [if_neg hc]
        simp [pushAcc]
    rw [List.cons_append]
    rw [show extractScan (c :: (pre' ++ l)) 0 false false none =
      (match extractStep c 0 false false none with
       | ScanState.done r => some r
       | ScanState.cont d2 i2 e2 a2 => extractScan (pre' ++ l) d2 i2 e2 a2) from rfl]
    rw [hstep]
    exact ih (fun x hx => hpre x (List.mem_cons_of_mem _ hx))

/-- C6: extractJSON returns exactly the embedded top-level JSON object
from prose-wrapped decision text: for every prefix free of braces,
quotes and backslashes, every suffix, and every object text that the
brace scanner accepts whole (a single balanced object) and that
contains no comment sequences to strip, the extractor returns exactly
that object. -/
theorem C6_extractJSON_returns_embedded_object (pre obj post : String)
    (hpre : ∀ c ∈ pre.data, c ≠ '\x7b' ∧ c ≠ '"' ∧ c ≠ '\\')
    (hobj : extractJSONRaw obj.data = some obj.data)
    (hcomments : removeJSONComments obj.data = obj.data) :
    extractJSON (pre ++ obj ++ post) = some obj := by
  unfold extractJSON
  have hdata : (pre ++ obj ++ post).data = pre.data ++ (obj.data ++ post.data) := by
    simp [List.append_assoc]
  unfold extractJSONRaw at hobj ⊢
  rw [hdata, extractScan_clean_prefix _ _ hpre,
    extractScan_append _ _ _ _ _ _ _ hobj]
  show some (⟨removeJSONComments obj.data⟩ : String) = some obj
  rw [hcomments]

/-- Witness for C6: the documented scenario with prose around the
decision object. -/
theorem C6_extractJSON_returns_embedded_object_witness :
    extractJSON ("Sure! " ++
        "\x7b\"action\":\"finish\",\"input\":\x7b\"message\":\"done\"\x7d\x7d" ++
        " Hope that helps.") =
      some "\x7b\"action\":\"finish\",\"input\":\x7b\"message\":\"done\"\x7d\x7d" := by
  apply C6_extractJSON_returns_embedded_object
  · decide
  · decide
  · decide

/-! ## click_by_index resolution (planner.go Run lines 472-552) -/

/-- The concrete action Run rewrites a click_by_index decision into. -/
inductive ResolvedAction where
  | clickSelector (selector : String) : ResolvedAction
  | clickRole (role : String) (name : Option String) : ResolvedAction
deriving Repr, DecidableEq, Inhabited

/-- Models Go strings.HasPrefix. -/
def goHasPrefix (s pre : String) : Bool :=
  s.data.take pre.data.length == pre.data

/-- The selector-validity heuristic of the bbox-less branch (planner.go
lines 509-511): non-empty, not starting with a bare [role=" prefix, and
containing a "[" (some attribute structure). -/
def hasValidSelector (e : Element) : Bool :=
  e.sel ≠ "" && !(goHasPrefix e.sel "[role=\"") && goContains e.sel "["

/-- The index lookup of Run (planner.go lines 486-491): the first
snapshot element whose Index equals the decision's index. -/
def findByIndex (elems : List Element) (i : Int) : Option Element :=
  elems.find? (fun el => el.index == i)

/-- Models the click_by_index conversion of Run (planner.go lines
506-551) applied to the found element: an element without a bounding
box whose role is real (non-empty, not generic/none) is clicked through
its selector only when that selector passes hasValidSelector, otherwise
through click_role with the element text as accessible name; every
other element is converted to click_selector on its stored selector. -/
def resolveClickByIndex (e : Element) : ResolvedAction :=
  if e.bbox = "" ∧ e.role ≠ "" ∧ e.role ≠ "generic" ∧ e.role ≠ "none" then
    if hasValidSelector e then ResolvedAction.clickSelector e.sel
    else ResolvedAction.clickRole e.role (if e.text ≠ "" then some e.text else none)
  else ResolvedAction.clickSelector e.sel

/-- C7 (counterexample): for the documented element with index 3, role
button, text Submit and selector #submit — and hence, by Go zero
values, an empty bbox — the conversion takes the bbox-less branch; the
selector "#submit" contains no "[" so hasValidSelector rejects it and
the decision resolves to click_role("button", "Submit"), not to the
selector tier. -/
theorem C7_bare_selector_falls_to_role_tier :
    findByIndex [{ index := 3, role := "button", text := "Submit", sel := "#submit" }] 3 =
      some { index := 3, role := "button", text := "Submit", sel := "#submit" } ∧
    resolveClickByIndex { index := 3, role := "button", text := "Submit", sel := "#submit" } =
      ResolvedAction.clickRole "button" (some "Submit") ∧
    resolveClickByIndex { index := 3, role := "button", text := "Submit", sel := "#submit" } ≠
      ResolvedAction.clickSelector "#submit" := by
  refine ⟨by decide, by decide, by decide⟩

/-- C7 (amended): the same element resolves to a selector-tier click on
"#submit" whenever its bounding box is non-empty (the bbox-less special
branch is then skipped). -/
theorem C7_click_by_index_selector_tier (bbox : String) (hbbox : bbox ≠ "") :
    resolveClickByIndex
      { index := 3, role := "button", text := "Submit", sel := "#submit", bbox := bbox } =
      ResolvedAction.clickSelector "#submit" := by
  unfold resolveClickByIndex
  rw [if_neg]
  intro hcontra
  exact hbbox hcontra.1

/-- Witness for the amended C7 at a concrete bounding box. -/
theorem C7_click_by_index_selector_tier_witness :
    resolveClickByIndex
      { index := 3, role := "button", text := "Submit", sel := "#submit",
        bbox := "10,20,200,40" } = ResolvedAction.clickSelector "#submit" :=
  C7_click_by_index_selector_tier "10,20,200,40" (by decide)

/-! ## Invocation-failure routing (planner.go Run lines 583-714 and
analyzeError lines 1008-1026) -/

/-- Models analyzeError: classify the lower-cased error message by
substring matching, in source order. -/
def analyzeError (errMsg : String) : String :=
  let errStr := strToLower errMsg
  if goContains errStr "badstring" || goContains errStr "unsupported token" ||
      goContains errStr "parsing selector" then "selector_parse_error"
  else if goContains errStr "timeout" then "timeout"
  else if goContains errStr "not found" || goContains errStr "not visible" then
    "element_not_found"
  else if goContains errStr "not clickable" || goContains errStr "not interactable" then
    "not_interactable"
  else if goContains errStr "stale" || goContains errStr "detached" then "stale_element"
  else if goContains errStr "network" || goContains errStr "connection" then "network_error"
  else "unknown"

/-- Go fmt %v rendering of a bool. -/
def goBoolString (b : Bool) : String := if b then "true" else "false"

/-- The Result text of the success-with-caveat history item (planner.go
line 656). -/
def timeoutCaveatResult (urlChanged elementsChanged : Bool) : String :=
  "timeout but page changed - user likely completed action manually (URL changed: " ++
    goBoolString urlChanged ++ ", elements changed: " ++ goBoolString elementsChanged ++ ")"

/-- How Run proceeds after a failed tool invocation, given the error's
class and the freshly re-observed summary. -/
inductive FailureHandling where
  | invalidSelector (item : HistoryItem) : FailureHandling
  | timeoutStateChanged (item : HistoryItem) (next : Summary) : FailureHandling
  | adaptiveRecovery : FailureHandling
deriving Repr, DecidableEq, Inhabited

/-- Models the failure routing of Run (planner.go lines 583-714): a
selector parse error records an "error: invalid selector" item and
skips every retry; a timeout whose re-observed snapshot differs in URL
or element count records the success-with-caveat item and continues
with the fresh summary — no retry and no failure record; every other
case goes on to the adaptive recovery strategies (and, failing those, a
failure record). -/
def handleInvokeFailure (dec : Decision) (errorType : String)
    (old fresh : Summary) : FailureHandling :=
  if errorType = "selector_parse_error" then
    FailureHandling.invalidSelector
      { action := dec.actionName
        result := "error: invalid selector"
        selector := if dec.actionName = "click_selector"
          then asGoString (jget dec.actionInput "selector") else ""
        url := old.url }
  else
    let urlChanged : Bool := old.url != fresh.url
    let elementsChanged : Bool := fresh.elements.length != old.elements.length
    if errorType = "timeout" ∧ (urlChanged || elementsChanged) then
      FailureHandling.timeoutStateChanged
        { action := dec.actionName
          result := timeoutCaveatResult urlChanged elementsChanged
          selector := ""
          url := fresh.url } fresh
    else FailureHandling.adaptiveRecovery

/-- C9: when a tool invocation fails with an error classified as
"timeout" and the fresh snapshot differs from the pre-action snapshot
in URL or element count, Run records the success-with-caveat history
item (action, caveat text, fresh URL) and continues the loop with the
fresh summary; the action is neither retried nor recorded as a
failure. -/
theorem C9_timeout_with_state_change_is_caveat_success (dec : Decision)
    (err : String) (old fresh : Summary)
    (herr : analyzeError err = "timeout")
    (hchange : old.url ≠ fresh.url ∨ fresh.elements.length ≠ old.elements.length) :
    handleInvokeFailure dec (analyzeError err) old fresh =
      FailureHandling.timeoutStateChanged
        { action := dec.actionName
          result := timeoutCaveatResult (old.url != fresh.url)
            (fresh.elements.length != old.elements.length)
          selector := ""
          url := fresh.url } fresh := by
  rw [herr]
  unfold handleInvokeFailure
  rw [if_neg (by decide)]
  rw [if_pos]
  refine ⟨rfl, ?_⟩
  rcases hchange with h | h
  · simp [bne_iff_ne, h]
  · simp [bne_iff_ne, h]

/-- Witness for C9: a concrete fill that times out while the URL moves
from the login page to the home page. -/
theorem C9_timeout_with_state_change_is_caveat_success_witness :
    handleInvokeFailure
      { actionName := "fill_by_index", actionInput := [("index", JValue.num 2)] }
      (analyzeError "Timeout 5000ms exceeded")
      { url := "https://mail.example/login" }
      { url := "https://mail.example/inbox" } =
      FailureHandling.timeoutStateChanged
        { action := "fill_by_index"
          result := timeoutCaveatResult true false
          selector := ""
          url := "https://mail.example/inbox" }
        { url := "https://mail.example/inbox" } := by
  have h := C9_timeout_with_state_change_is_caveat_success
    { actionName := "fill_by_index", actionInput := [("index", JValue.num 2)] }
    "Timeout 5000ms exceeded"
    { url := "https://mail.example/login" }
    { url := "https://mail.example/inbox" }
    (by decide) (Or.inl (by decide))
  simpa using h

/-! ## Decision-service client retry policy (internal/llm: the Anthropic
client in part_005 and the OpenAI client in part_007, both Generate) -/

/-- What one attempt of Generate observes: the HTTP request itself
fails, reading the response body fails, or a response arrives with a
status code. For responses, bodyParses says whether the body decodes
into a usable response (2xx path), and usageLimit marks the Anthropic
400 invalid_request_error mentioning API usage limits. -/
inductive AttemptOutcome where
  | netErr : AttemptOutcome
  | readErr : AttemptOutcome
  | httpResp (status : Nat) (bodyParses : Bool) (usageLimit : Bool) : AttemptOutcome
deriving Repr, DecidableEq, Inhabited

/-- How one attempt ends: the loop returns the response, returns an
error immediately, or (subject to the attempt budget) retries. -/
inductive StepClass where
  | success : StepClass
  | fatal : StepClass
  | retryable : StepClass
deriving Repr, DecidableEq, Inhabited

/-- maxRetries / openAIMaxRetries in the source. -/
def maxRetries : Nat := 3

/-- retryBaseDelay is 500ms and doubles per attempt
(delay = 500ms * 2^(attempt-1), part_005 line 127 / part_007 line 156):
the delays slept before attempts 1..retries. -/
def backoffDelaysMs (retries : Nat) : List Nat :=
  (List.range retries).map (fun k => 500 * 2 ^ k)

/-- The per-attempt classification of the Anthropic Generate
(part_005 lines 182-266): transport and body-read errors retry; a 400
usage-limit error returns immediately; 429 and 5xx retry; other 4xx
return immediately; a 2xx body that fails to json.Unmarshal retries. -/
def anthropicStep : AttemptOutcome → StepClass
  | AttemptOutcome.netErr => StepClass.retryable
  | AttemptOutcome.readErr => StepClass.retryable
  | AttemptOutcome.httpResp status bodyParses usageLimit =>
    if 400 ≤ status then
      if status = 400 ∧ usageLimit then StepClass.fatal
      else if status = 429 ∨ 500 ≤ status then StepClass.retryable
      else StepClass.fatal
    else if bodyParses then StepClass.success
    else StepClass.retryable

/-- The per-attempt classification of the OpenAI Generate (part_007
lines 228-343): transport and body-read errors retry; 429 and 5xx
retry; other 4xx return immediately; a 2xx body that fails to decode
returns immediately. -/
def openAIStep : AttemptOutcome → StepClass
  | AttemptOutcome.netErr => StepClass.retryable
  | AttemptOutcome.readErr => StepClass.retryable
  | AttemptOutcome.httpResp status bodyParses _ =>
    if 400 ≤ status then
      if status = 429 ∨ 500 ≤ status then StepClass.retryable
      else StepClass.fatal
    else if bodyParses then StepClass.success
    else StepClass.fatal

/-- The requests issued, backoff delays slept, and final success flag of
one Generate call. -/
structure GenTrace where
  requests : Nat
  delaysMs : List Nat
  ok : Bool
deriving Repr, DecidableEq, Inhabited

/-- The retry loop of Generate (for attempt := 0; attempt <= maxRetries;
attempt++), given the outcome each attempt would observe. A retryable
outcome continues only while attempt < maxRetries; at the last attempt
it returns the error, exactly as the `attempt < maxRetries` guards in
the source. The fuel argument is maxRetries+1-attempt at every call, so
the fuel-0 branch (the post-loop "max retries exceeded" return, which
the in-loop guards make unreachable) is never taken. -/
def runGenerateAux (step : AttemptOutcome → StepClass)
    (outcomes : Nat → AttemptOutcome) : Nat → Nat → GenTrace
  | attempt, 0 =>
    { requests := attempt, delaysMs := backoffDelaysMs (attempt - 1), ok := false }
  | attempt, remaining + 1 =>
    match step (outcomes attempt) with
    | StepClass.success =>
      { requests := attempt + 1, delaysMs := backoffDelaysMs attempt, ok := true }
    | StepClass.fatal =>
      { requests := attempt + 1, delaysMs := backoffDelaysMs attempt, ok := false }
    | StepClass.retryable =>
      if attempt < maxRetries then runGenerateAux step outcomes (attempt + 1) remaining
      else { requests := attempt + 1, delaysMs := backoffDelaysMs attempt, ok := false }

/-- One Generate call of either client, abstracted over its per-attempt
classification. -/
def runGenerate (step : AttemptOutcome → StepClass)
    (outcomes : Nat → AttemptOutcome) : GenTrace :=
  runGenerateAux step outcomes 0 (maxRetries + 1)

theorem runGenerateAux_requests_le (step : AttemptOutcome → StepClass)
    (outcomes : Nat → AttemptOutcome) (remaining attempt : Nat) :
    (runGenerateAux step outcomes attempt remaining).requests ≤ attempt + remaining := by
  induction remaining generalizing attempt with
  | zero => simp [runGenerateAux]
  | succ r ih =>
    rw [show runGenerateAux step outcomes attempt (r + 1) =
      (match step (outcomes attempt) with
       | StepClass.success =>
         { requests := attempt + 1, delaysMs := backoffDelaysMs attempt, ok := true }
       | StepClass.fatal =>
         { requests := attempt + 1, delaysMs := backoffDelaysMs attempt, ok := false }
       | StepClass.retryable =>
         if attempt < maxRetries then runGenerateAux step outcomes (attempt + 1) r
         else { requests := attempt + 1, delaysMs := backoffDelaysMs attempt, ok := false })
      from rfl]
    cases step (outcomes attempt) with
    | success => simp
    | fatal => simp
    | retryable =>
      split_ifs
      · calc (runGenerateAux step outcomes (attempt + 1) r).requests
            ≤ (attempt + 1) + r := ih (attempt + 1)
          _ = attempt + (r + 1) := by omega
      · simp

theorem runGenerateAux_delays (step : AttemptOutcome → StepClass)
    (outcomes : Nat → AttemptOutcome) (remaining attempt : Nat) :
    (runGenerateAux step outcomes attempt remaining).delaysMs =
      backoffDelaysMs ((runGenerateAux step outcomes attempt remaining).requests - 1) := by
  induction remaining generalizing attempt with
  | zero => simp [runGenerateAux]
  | succ r ih =>
    rw [show runGenerateAux step outcomes attempt (r + 1) =
      (match step (outcomes attempt) with
       | StepClass.success =>
         { requests := attempt + 1, delaysMs := backoffDelaysMs attempt, ok := true }
       | StepClass.fatal =>
         { requests := attempt + 1, delaysMs := backoffDelaysMs attempt, ok := false }
       | StepClass.retryable =>
         if attempt < maxRetries then runGenerateAux step outcomes (attempt + 1) r
         else { requests := attempt + 1, delaysMs := backoffDelaysMs attempt, ok := false })
      from rfl]
    cases step (outcomes attempt) with
    | success => simp
    | fatal => simp
    | retryable =>
      split_ifs
      · exact ih (attempt + 1)
      · simp

/-- C8 (counterexample to the claim as stated): the Anthropic Generate
retries on a 200 response whose body fails to parse — an outcome that
is not a network error, HTTP 429 or 5xx — issuing all four requests
with the full backoff schedule. -/
theorem C8_anthropic_retries_unparsable_success :
    anthropicStep (AttemptOutcome.httpResp 200 false false) = StepClass.retryable ∧
    ¬((200 : Nat) = 429 ∨ (500 : Nat) ≤ 200) ∧
    runGenerate anthropicStep (fun _ => AttemptOutcome.httpResp 200 false false) =
      { requests := 4, delaysMs := [500, 1000, 2000], ok := false } := by
  refine ⟨by decide, by decide, by decide⟩

/-- C8 (amended): both decision clients retry at most maxRetries = 3
times with exponential backoff 500ms, 1000ms, 2000ms; a response with a
non-429 4xx status is returned as an error after a single request with
no retry; and the retried outcomes are exactly: network errors,
body-read errors, HTTP 429, HTTP 5xx — plus, in the Anthropic client
only, 2xx responses whose body fails to parse. -/
theorem C8_retry_policy :
    (∀ (s : Nat) (p u : Bool),
      (anthropicStep (AttemptOutcome.httpResp s p u) = StepClass.retryable ↔
        (s = 429 ∨ 500 ≤ s ∨ (s < 400 ∧ p = false))) ∧
      (openAIStep (AttemptOutcome.httpResp s p u) = StepClass.retryable ↔
        (s = 429 ∨ 500 ≤ s))) ∧
    (anthropicStep AttemptOutcome.netErr = StepClass.retryable ∧
      anthropicStep AttemptOutcome.readErr = StepClass.retryable ∧
      openAIStep AttemptOutcome.netErr = StepClass.retryable ∧
      openAIStep AttemptOutcome.readErr = StepClass.retryable) ∧
    (∀ (step : AttemptOutcome → StepClass) (outcomes : Nat → AttemptOutcome),
      (runGenerate step outcomes).requests ≤ maxRetries + 1) ∧
    (∀ (step : AttemptOutcome → StepClass) (outcomes : Nat → AttemptOutcome),
      (runGenerate step outcomes).delaysMs =
        backoffDelaysMs ((runGenerate step outcomes).requests - 1)) ∧
    (∀ (s : Nat) (p u : Bool), 400 ≤ s → s < 500 → s ≠ 429 →
      anthropicStep (AttemptOutcome.httpResp s p u) = StepClass.fatal ∧
      openAIStep (AttemptOutcome.httpResp s p u) = StepClass.fatal) ∧
    (∀ (step : AttemptOutcome → StepClass) (outcomes : Nat → AttemptOutcome),
      step (outcomes 0) = StepClass.fatal →
      runGenerate step outcomes = { requests := 1, delaysMs := [], ok := false }) := by
  refine ⟨?_, ⟨rfl, rfl, rfl, rfl⟩, ?_, ?_, ?_, ?_⟩
  · intro s p u
    constructor
    · simp only [anthropicStep]
      split_ifs <;> simp_all <;> omega
    · simp only [openAIStep]
      split_ifs <;> simp_all <;> omega
  · intro step outcomes
    exact runGenerateAux_requests_le step outcomes (maxRetries + 1) 0
  · intro step outcomes
    exact runGenerateAux_delays step outcomes (maxRetries + 1) 0
  · intro s p u h400 h500 h429
    constructor
    · simp only [anthropicStep]
      split_ifs <;> simp_all <;> omega
    · simp only [openAIStep]
      split_ifs <;> simp_all <;> omega
  · intro step outcomes hfatal
    unfold runGenerate
    rw [show runGenerateAux step outcomes 0 (maxRetries + 1) =
      (match step (outcomes 0) with
       | StepClass.success =>
         { requests := 1, delaysMs := backoffDelaysMs 0, ok := true }
       | StepClass.fatal =>
         { requests := 1, delaysMs := backoffDelaysMs 0, ok := false }
       | StepClass.retryable =>
         if 0 < maxRetries then runGenerateAux step outcomes 1 maxRetries
         else { requests := 1, delaysMs := backoffDelaysMs 0, ok := false })
      from rfl]
    rw [hfatal]
    rfl

/-- Witness for the amended C8: a 404 response is returned as an error
after exactly one request with no backoff. -/
theorem C8_retry_policy_witness :
    runGenerate anthropicStep (fun _ => AttemptOutcome.httpResp 404 true false) =
      { requests := 1, delaysMs := [], ok := false } ∧
    runGenerate openAIStep (fun _ => AttemptOutcome.httpResp 404 true false) =
      { requests := 1, delaysMs := [], ok := false } := by
  constructor
  · exact C8_retry_policy.2.2.2.2.2 anthropicStep _
      ((C8_retry_policy.2.2.2.2.1 404 true false (by decide) (by decide) (by decide)).1)
  · exact C8_retry_policy.2.2.2.2.2 openAIStep _
      ((C8_retry_policy.2.2.2.2.1 404 true false (by decide) (by decide) (by decide)).2)

end Agent
